import Mathlib

/-!
Verification development for the `fyrd` helpers and submission-script
modules (`fyrd/helpers.py`, `fyrd/submission_scripts.py`).

The Python source is shallowly embedded: dataframes become lists of rows,
the numpy `array_split` partitioner is reproduced from its documented
divmod algorithm, the `parapply` fan-out pipeline becomes an `Except`
returning function parameterised by the external backend, and the
`Function`/`Script` classes of `submission_scripts.py` become explicit
state-passing functions over an association-list file system.
-/

namespace Fyrd

/-! ### numpy.array_split (helpers.py line 132)

`numpy.array_split(ary, n)` computes `q, r = divmod(len(ary), n)` and cuts
the array into `r` sections of size `q + 1` followed by `n - r` sections of
size `q`.  A dataframe is modelled as a list of rows, split along axis 0. -/

/-- Section sizes used by numpy `array_split` for a length-`N` input split
into `n` sections. -/
def splitSizes (N n : Nat) : List Nat :=
  List.replicate (N % n) (N / n + 1) ++ List.replicate (n - N % n) (N / n)

/-- Cut a list into consecutive chunks of the given sizes. -/
def splitBySizes (l : List α) : List Nat → List (List α)
  | [] => []
  | s :: rest => l.take s :: splitBySizes (l.drop s) rest

/-- `numpy.array_split` of a dataframe (list of rows) into `n` shards. -/
def array_split (l : List α) (n : Nat) : List (List α) :=
  splitBySizes l (splitSizes l.length n)

theorem splitSizes_sum (N n : Nat) (hn : 0 < n) : (splitSizes N n).sum = N := by
  have hmod : N % n < n := Nat.mod_lt _ hn
  have hdm : n * (N / n) + N % n = N := Nat.div_add_mod N n
  have h1 : N % n * (N / n) ≤ n * (N / n) :=
    Nat.mul_le_mul_right _ (Nat.le_of_lt hmod)
  simp only [splitSizes, List.sum_append, List.sum_replicate, smul_eq_mul,
    Nat.mul_succ, Nat.sub_mul]
  omega

theorem splitSizes_length (N n : Nat) (hn : 0 < n) :
    (splitSizes N n).length = n := by
  have hmod : N % n < n := Nat.mod_lt _ hn
  simp only [splitSizes, List.length_append, List.length_replicate]
  omega

theorem splitBySizes_length (l : List α) (sizes : List Nat) :
    (splitBySizes l sizes).length = sizes.length := by
  induction sizes generalizing l with
  | nil => rfl
  | cons s rest ih => simp [splitBySizes, ih]

theorem splitBySizes_join (l : List α) (sizes : List Nat)
    (h : sizes.sum = l.length) : (splitBySizes l sizes).flatten = l := by
  induction sizes generalizing l with
  | nil =>
    simp only [List.sum_nil] at h
    simp [splitBySizes, (List.length_eq_zero.mp h.symm).symm]
  | cons s rest ih =>
    simp only [List.sum_cons] at h
    have hs : s ≤ l.length := by omega
    have hrest : rest.sum = (l.drop s).length := by
      simp only [List.length_drop]; omega
    simp only [splitBySizes, List.flatten_cons]
    rw [ih _ hrest, List.take_append_drop]

theorem splitBySizes_lengths (l : List α) (sizes : List Nat)
    (h : sizes.sum ≤ l.length) :
    (splitBySizes l sizes).map List.length = sizes := by
  induction sizes generalizing l with
  | nil => rfl
  | cons s rest ih =>
    simp only [List.sum_cons] at h
    have hs : s ≤ l.length := by omega
    have hrest : rest.sum ≤ (l.drop s).length := by
      simp only [List.length_drop]; omega
    simp only [splitBySizes, List.map_cons, List.length_take,
      Nat.min_eq_left hs, ih _ hrest]

theorem array_split_length (l : List α) (n : Nat) (hn : 0 < n) :
    (array_split l n).length = n := by
  rw [array_split, splitBySizes_length, splitSizes_length _ _ hn]

theorem array_split_join (l : List α) (n : Nat) (hn : 0 < n) :
    (array_split l n).flatten = l :=
  splitBySizes_join _ _ (splitSizes_sum _ _ hn)

theorem array_split_counts (l : List α) (n : Nat) (hn : 0 < n) :
    ((array_split l n).map List.length).sum = l.length := by
  rw [← List.length_flatten, array_split_join l n hn]

/-- Claim C2: for every positive integer `K` and dataset `D` with `N` rows,
`numpy.array_split` (the partitioning step of `parapply`, helpers.py line
132) yields exactly `K` shards, the shard row counts sum to `N`, and
concatenating the shards in order along axis 0 reproduces `D`. -/
theorem claim_C2 {α : Type} (K : Nat) (df : List α) (hK : 0 < K) :
    (array_split df K).length = K ∧
    ((array_split df K).map List.length).sum = df.length ∧
    (array_split df K).flatten = df :=
  ⟨array_split_length df K hK, array_split_counts df K hK,
    array_split_join df K hK⟩

/-- Claim C2 witness: the theorem applied to a concrete 4-row dataset split
into 3 shards. -/
theorem claim_C2_witness :
    0 < 3 ∧
    ((array_split [(10 : Nat), 20, 30, 40] 3).length = 3 ∧
     ((array_split [(10 : Nat), 20, 30, 40] 3).map List.length).sum
        = [(10 : Nat), 20, 30, 40].length ∧
     (array_split [(10 : Nat), 20, 30, 40] 3).flatten
        = [(10 : Nat), 20, 30, 40]) :=
  ⟨by decide, claim_C2 3 [(10 : Nat), 20, 30, 40] (by decide)⟩

/-! ### The parapply fan-out pipeline (helpers.py lines 81-188)

`parapply` first splits the fyrd/pandas keyword arguments (external
collaborator `_options.split_keywords`, which does not raise on the inputs
considered here), then checks `isinstance(jobs, int)` (line 122), splits
the dataframe with `numpy.array_split` (line 132; numpy raises
`ValueError` when the section count is not positive), submits one job per
shard (lines 157-166), collects results in shard order re-raising the
first `IOError` (lines 169-176), and finally concatenates with `pd.concat`
re-raising `ValueError` (lines 179-183).  The external backend is
modelled by a function `getRes` giving the outcome of `outs[i].get()` for
shard `i`, and the external concatenation by a function `concat`. -/

/-- The Python value passed as the `jobs` argument: an `int`, or any value
of another type (`isinstance(jobs, int)` at line 122 is what separates
them). -/
inductive PyJobs where
  | int (n : Int)
  | other (txt : String)
deriving DecidableEq

/-- The distinct failure exits of `parapply`, tagged by the raise site. -/
inductive PErr where
  | valueErrorJobs   -- line 123: 'Jobs argument must be an integer.'
  | valueErrorSplit  -- inside numpy array_split: sections must be positive
  | ioErrorCollect   -- line 176: re-raise of IOError from out.get()
  | valueErrorConcat -- line 183: re-raise of ValueError from pd.concat
deriving DecidableEq

/-- The collection loop of lines 169-176: results are appended in shard
order and the first `IOError` is re-raised immediately. -/
def collectInOrder {ε α : Type} : List (Except ε α) → Except ε (List α)
  | [] => .ok []
  | .error e :: _ => .error e
  | .ok v :: rest => (collectInOrder rest).map (fun t => v :: t)

/-- The `parapply` pipeline.  All `jobCount` jobs are submitted before any
result is awaited; `getRes i` is the outcome of awaiting shard `i`. -/
def parapply {R S T : Type} (jobs : PyJobs) (df : List R)
    (getRes : Nat → Except Unit S) (concat : List S → Except Unit T) :
    Except PErr T :=
  match jobs with
  | .other _ => .error .valueErrorJobs
  | .int n =>
    if n ≤ 0 then .error .valueErrorSplit
    else
      match collectInOrder
          ((List.range (array_split df n.toNat).length).map getRes) with
      | .error _ => .error .ioErrorCollect
      | .ok results =>
        match concat results with
        | .error _ => .error .valueErrorConcat
        | .ok t => .ok t

/-- Claim C1 counterexample: `jobs = 0` is not a positive integer, yet it
passes the line-122 check; the `ValueError` it produces is raised inside
`numpy.array_split` during partitioning, not by the pre-partition jobs
check — refuting the claim that every non-positive `jobs` is rejected by
that check before any partitioning. -/
theorem claim_C1_counterexample :
    parapply (PyJobs.int 0) ([[1]] : List (List Int))
        (fun _ => Except.ok (0 : Int)) (fun _ => Except.ok (0 : Int))
      = Except.error PErr.valueErrorSplit ∧
    PErr.valueErrorSplit ≠ PErr.valueErrorJobs :=
  ⟨rfl, by decide⟩

/-- Claim C1 (amended): the line-122 check rejects exactly non-integer
`jobs` values with `ValueError` before any partitioning; integer `jobs`
of any sign pass the check, and for `jobs ≤ 0` the `ValueError` is raised
later, inside `numpy.array_split` while partitioning. -/
theorem claim_C1_amended {R S T : Type} (df : List R)
    (getRes : Nat → Except Unit S) (concat : List S → Except Unit T) :
    (∀ s, parapply (PyJobs.other s) df getRes concat
        = Except.error PErr.valueErrorJobs) ∧
    (∀ n : Int, n ≤ 0 → parapply (PyJobs.int n) df getRes concat
        = Except.error PErr.valueErrorSplit) := by
  refine ⟨fun s => rfl, fun n hn => ?_⟩
  simp [parapply, hn]

/-- Claim C1 witness: the amended theorem applied to the non-integer value
`'3'` and to the negative integer `-2`. -/
theorem claim_C1_witness :
    parapply (PyJobs.other "3") ([[1]] : List (List Int))
        (fun _ => Except.ok (0 : Int)) (fun _ => Except.ok (0 : Int))
      = Except.error PErr.valueErrorJobs ∧
    ((-2 : Int) ≤ 0 ∧
      parapply (PyJobs.int (-2)) ([[1]] : List (List Int))
        (fun _ => Except.ok (0 : Int)) (fun _ => Except.ok (0 : Int))
      = Except.error PErr.valueErrorSplit) :=
  ⟨(claim_C1_amended [[1]] (fun _ => Except.ok 0)
      (fun _ => Except.ok 0)).1 "3",
   by decide,
   (claim_C1_amended [[1]] (fun _ => Except.ok 0)
      (fun _ => Except.ok 0)).2 (-2) (by decide)⟩

theorem collectInOrder_range'_error {ε α : Type} (g : Nat → Except ε α)
    (e : ε) :
    ∀ (len s i : Nat), s ≤ i → i < s + len →
      (∀ j, s ≤ j → j < i → ∃ v, g j = .ok v) → g i = .error e →
      collectInOrder ((List.range' s len).map g) = .error e := by
  intro len
  induction len with
  | zero => intro s i hsi hlt _ _; omega
  | succ k ih =>
    intro s i hsi hlt hpre hie
    rw [List.range'_succ, List.map_cons]
    rcases Nat.eq_or_lt_of_le hsi with heq | hlt'
    · subst heq
      rw [hie]
      rfl
    · obtain ⟨v, hv⟩ := hpre s (Nat.le_refl s) hlt'
      rw [hv]
      show (collectInOrder ((List.range' (s + 1) k).map g)).map _ = _
      rw [ih (s + 1) i hlt' (by omega)
        (fun j hj1 hj2 => hpre j (by omega) hj2) hie]
      rfl

/-- Claim C4: shard results are awaited strictly in shard order; if the
first failing shard is `i` (every shard before `i` collects successfully
and `out.get()` for shard `i` raises `IOError`), `parapply` propagates the
failure immediately: the caller receives the collection error and no
merged result, whatever the outcomes of the remaining shards and whatever
the concatenation function would have produced. -/
theorem claim_C4 {R S T : Type} (n : Int) (hn : 0 < n) (df : List R)
    (getRes : Nat → Except Unit S) (concat : List S → Except Unit T)
    (i : Nat) (hi : i < (array_split df n.toNat).length)
    (hpre : ∀ j, j < i → ∃ v, getRes j = .ok v)
    (hie : getRes i = .error ()) :
    parapply (PyJobs.int n) df getRes concat
      = Except.error PErr.ioErrorCollect := by
  have hc : collectInOrder
      ((List.range (array_split df n.toNat).length).map getRes)
      = .error () := by
    rw [List.range_eq_range']
    exact collectInOrder_range'_error getRes () _ 0 i (Nat.zero_le i)
      (by omega) (fun j _ hj => hpre j hj) hie
  simp only [parapply, if_neg (by omega : ¬ n ≤ 0), hc]

/-- Claim C4 witness: a 3-row dataset split into 2 shards where shard 0
collects fine and shard 1 fails; the whole call returns the collection
error. -/
theorem claim_C4_witness :
    (0 : Int) < 2 ∧
    1 < (array_split [(1 : Int), 2, 3] (2 : Int).toNat).length ∧
    parapply (PyJobs.int 2) [(1 : Int), 2, 3]
        (fun j => if j = 0 then Except.ok (7 : Int) else Except.error ())
        (fun _ => Except.ok (0 : Int))
      = Except.error PErr.ioErrorCollect :=
  ⟨by decide, by decide,
    claim_C4 2 (by decide) [(1 : Int), 2, 3]
      (fun j => if j = 0 then Except.ok (7 : Int) else Except.error ())
      (fun _ => Except.ok (0 : Int)) 1 (by decide)
      (fun j hj => ⟨7, by
        have hj0 : j = 0 := by omega
        subst hj0; rfl⟩)
      rfl⟩

/-! ### parapply_summary with a column-mean reduction (helpers.py 35-78)

`parapply_summary` calls `parapply(..., merge_axis=1)`, transposes the
concatenated result, and applies the reduction once more (lines 67-78).
With `func` = column mean on a dataframe of rationals, each shard reduces
to its vector of per-column means; concatenating those Series along axis 1
and transposing yields the `K × C` matrix whose row `i` is shard `i`'s
mean vector, and the second apply takes the per-column mean of that
matrix.  Column means are the external pandas `DataFrame.apply(mean)`,
embedded here as exact rational arithmetic. -/

/-- Pointwise sum of two rows (the columnwise addition underlying a
per-column reduction). -/
def addVec : List ℚ → List ℚ → List ℚ := List.zipWith (· + ·)

/-- Columnwise sums of a dataframe: the empty frame has no columns, and a
non-empty frame folds its rows together pointwise. -/
def colSums : List (List ℚ) → List ℚ
  | [] => []
  | [r] => r
  | r :: rest => addVec r (colSums rest)

/-- `df.apply(mean)`: the per-column mean vector of a dataframe. -/
def colMeans (df : List (List ℚ)) : List ℚ :=
  (colSums df).map (fun x => x / (df.length : ℚ))

/-- `parapply_summary(jobs, df, mean)`: split `df` into `K` shards
(helpers.py line 132), reduce each shard to its column-mean vector, stack
the `K` partial vectors as rows (concat on axis 1 followed by the
transpose at line 75), and apply the column mean once more (line 78). -/
def parapply_summary_colmean (K : Nat) (df : List (List ℚ)) : List ℚ :=
  colMeans ((array_split df K).map colMeans)

theorem colSums_cons_cons (r s : List ℚ) (t : List (List ℚ)) :
    colSums (r :: s :: t) = addVec r (colSums (s :: t)) := rfl

theorem addVec_assoc (a b c : List ℚ) :
    addVec (addVec a b) c = addVec a (addVec b c) := by
  induction a generalizing b c with
  | nil => simp [addVec]
  | cons x xs ih =>
    cases b with
    | nil => simp [addVec]
    | cons y ys =>
      cases c with
      | nil => simp [addVec]
      | cons z zs =>
        simp only [addVec, List.zipWith_cons_cons]
        exact congrArg₂ _ (add_assoc x y z) (ih ys zs)

theorem addVec_map_div (c : ℚ) (a b : List ℚ) :
    addVec (a.map (fun x => x / c)) (b.map (fun x => x / c))
      = (addVec a b).map (fun x => x / c) := by
  induction a generalizing b with
  | nil => simp [addVec]
  | cons x xs ih =>
    cases b with
    | nil => simp [addVec]
    | cons y ys =>
      simp only [addVec, List.map_cons, List.zipWith_cons_cons]
      exact congrArg₂ _ (add_div x y c).symm (ih ys)

theorem colSums_map_div (c : ℚ) (vs : List (List ℚ)) :
    colSums (vs.map (List.map (fun x => x / c)))
      = (colSums vs).map (fun x => x / c) := by
  induction vs with
  | nil => rfl
  | cons v rest ih =>
    cases rest with
    | nil => rfl
    | cons w t =>
      simp only [List.map_cons] at ih ⊢
      rw [colSums_cons_cons, colSums_cons_cons, ih, addVec_map_div]

theorem colSums_append (a b : List (List ℚ)) (ha : a ≠ []) (hb : b ≠ []) :
    colSums (a ++ b) = addVec (colSums a) (colSums b) := by
  induction a with
  | nil => exact absurd rfl ha
  | cons x t ih =>
    cases t with
    | nil =>
      cases b with
      | nil => exact absurd rfl hb
      | cons y bs => simp only [List.singleton_append, colSums_cons_cons]; rfl
    | cons y t2 =>
      have h1 : (y :: t2) ++ b = y :: (t2 ++ b) := rfl
      have h2 : (x :: y :: t2) ++ b = x :: y :: (t2 ++ b) := rfl
      rw [h2, colSums_cons_cons, ← h1, ih (by simp) , colSums_cons_cons,
        addVec_assoc]

theorem colSums_map_colSums (blocks : List (List (List ℚ)))
    (h : ∀ b ∈ blocks, b ≠ []) :
    colSums (blocks.map colSums) = colSums blocks.flatten := by
  induction blocks with
  | nil => rfl
  | cons b rest ih =>
    cases rest with
    | nil => simp [colSums]
    | cons b2 t2 =>
      have hb : b ≠ [] := h b (by simp)
      have hb2 : b2 ≠ [] := h b2 (by simp)
      have hflat : ((b2 :: t2) : List (List (List ℚ))).flatten ≠ [] := by
        simp only [List.flatten_cons]
        intro hc
        rcases List.append_eq_nil.mp hc with ⟨hc1, _⟩
        exact hb2 hc1
      simp only [List.map_cons] at ih ⊢
      rw [colSums_cons_cons, ih (fun x hx => h x (by simp [hx]))]
      exact (colSums_append b _ hb hflat).symm

theorem splitSizes_of_dvd (N K : Nat) (h : K ∣ N) :
    splitSizes N K = List.replicate K (N / K) := by
  have hmod : N % K = 0 := by
    rcases h with ⟨c, rfl⟩
    exact Nat.mul_mod_right K c
  simp [splitSizes, hmod]

/-- Claim C3 counterexample: the dataset `[[0],[0],[3]]` split into 2
shards (`[[0],[0]]` and `[[3]]`) has direct column mean `[1]`, but
`parapply_summary` with the column-mean reduction returns `[3/2]` — the
unweighted mean of the two partial means `0` and `3` — refuting the claim
that the summary-mode fan-out equals the column mean of the unsplit
dataset. -/
theorem claim_C3_counterexample :
    parapply_summary_colmean 2 [[0], [0], [3]] = [(3 : ℚ) / 2] ∧
    colMeans [[0], [0], [3]] = [(1 : ℚ)] ∧
    parapply_summary_colmean 2 [[0], [0], [3]]
      ≠ colMeans [[0], [0], [3]] := by
  norm_num [parapply_summary_colmean, colMeans, colSums, addVec,
    array_split, splitSizes, splitBySizes]

/-- Claim C3 (amended): `parapply_summary` with a column-mean reduction
returns the unweighted mean of the `K` per-shard column means; this equals
the column mean of the unsplit dataset whenever the shard row counts are
equal, i.e. when `K` divides the (positive) row count, but not in
general. -/
theorem claim_C3_amended (K : Nat) (df : List (List ℚ)) (hK : 0 < K)
    (hN : 0 < df.length) (hdvd : K ∣ df.length) :
    parapply_summary_colmean K df = colMeans df := by
  set N := df.length with hNdef
  set m := N / K with hm
  have hNm : K * m = N := Nat.mul_div_cancel' hdvd
  have hm0 : 0 < m := by
    rcases Nat.eq_zero_or_pos m with h0 | h
    · rw [h0, Nat.mul_zero] at hNm; omega
    · exact h
  have hsizes : splitSizes N K = List.replicate K m :=
    splitSizes_of_dvd N K hdvd
  have hshards : array_split df K = splitBySizes df (List.replicate K m) := by
    rw [array_split, ← hNdef, hsizes]
  have hsum : (List.replicate K m).sum ≤ df.length := by
    simp [List.sum_replicate, smul_eq_mul]
    omega
  have hlens : (array_split df K).map List.length = List.replicate K m := by
    rw [hshards, splitBySizes_lengths _ _ hsum]
  have hsh_len : ∀ s ∈ array_split df K, s.length = m := by
    intro s hs
    have : s.length ∈ List.replicate K m := by
      rw [← hlens]; exact List.mem_map_of_mem _ hs
    exact List.eq_of_mem_replicate this
  have hsh_ne : ∀ s ∈ array_split df K, s ≠ [] := by
    intro s hs hc
    have := hsh_len s hs
    rw [hc] at this
    simp at this
    omega
  have hcount : (array_split df K).length = K := array_split_length df K hK
  have hjoin : (array_split df K).flatten = df := array_split_join df K hK
  have hmapped : (array_split df K).map colMeans
      = ((array_split df K).map colSums).map
          (List.map (fun x => x / (m : ℚ))) := by
    rw [List.map_map]
    refine List.map_congr_left (fun s hs => ?_)
    simp only [Function.comp_apply, colMeans, hsh_len s hs]
  unfold parapply_summary_colmean
  rw [colMeans, hmapped, colSums_map_div, colSums_map_colSums _ hsh_ne,
    hjoin]
  simp only [List.length_map, hcount, List.map_map, colMeans, ← hNdef]
  refine List.map_congr_left (fun x _ => ?_)
  simp only [Function.comp_apply]
  rw [div_div]
  congr 1
  rw [← hNm]
  push_cast
  ring

/-- Claim C3 witness: the amended theorem on a 4-row single-column dataset
split into 2 equal shards. -/
theorem claim_C3_witness :
    0 < 2 ∧ 0 < ([[(1 : ℚ)], [2], [3], [4]] : List (List ℚ)).length ∧
    2 ∣ ([[(1 : ℚ)], [2], [3], [4]] : List (List ℚ)).length ∧
    parapply_summary_colmean 2 [[(1 : ℚ)], [2], [3], [4]]
      = colMeans [[(1 : ℚ)], [2], [3], [4]] :=
  ⟨by decide, by decide, by decide,
    claim_C3_amended 2 [[(1 : ℚ)], [2], [3], [4]] (by decide) (by decide)
      (by decide)⟩

/-! ### String helpers for the submission_scripts embedding

Python string primitives used by `Function.__init__` — `split('.')`,
`'.'.join`, `startswith`, `rstrip`, code-point comparison, substring
membership, `os.path.split` and `os.path.splitext` — are embedded as
computable functions on `List Char`. -/

/-- Prefix test on character lists (Python `startswith`). -/
def isPre : List Char → List Char → Bool
  | [], _ => true
  | _ :: _, [] => false
  | c :: cs, d :: ds => c.toNat == d.toNat && isPre cs ds

/-- Substring test: does `hay` contain `sub` as a contiguous substring? -/
def hasSub (sub : List Char) : List Char → Bool
  | [] => isPre sub []
  | c :: t => isPre sub (c :: t) || hasSub sub t

/-- Python `s.startswith(pre)`. -/
def strStarts (s pre : String) : Bool := isPre pre.toList s.toList

/-- Substring membership on strings. -/
def containsStr (hay needle : String) : Bool := hasSub needle.toList hay.toList

/-- Python `name.split('.')`. -/
def splitDotAux : List Char → List Char → List String
  | [], acc => [String.mk acc.reverse]
  | c :: cs, acc =>
    if c == '.' then String.mk acc.reverse :: splitDotAux cs []
    else splitDotAux cs (c :: acc)

def splitDot (s : String) : List String := splitDotAux s.toList []

/-- Python `'.'.join(parts)`. -/
def joinDots : List String → String
  | [] => ""
  | [x] => x
  | x :: xs => x ++ "." ++ joinDots xs

/-- Python whitespace test for `rstrip`. -/
def isSpaceChar (c : Char) : Bool :=
  c == ' ' || c == '\n' || c == '\t' || c == '\r'

/-- Python `s.rstrip()`. -/
def rstripStr (s : String) : String :=
  String.mk ((s.toList.reverse.dropWhile isSpaceChar).reverse)

/-- Python code-point lexicographic `≤` on strings, via `List Char`. -/
def lexLe : List Char → List Char → Bool
  | [], _ => true
  | _ :: _, [] => false
  | c :: cs, d :: ds =>
    if c.toNat == d.toNat then lexLe cs ds else decide (c.toNat < d.toNat)

def strLeB (a b : String) : Bool := lexLe a.toList b.toList

/-- `os.path.split(p)[1]`: the part of the path after the last slash. -/
def pathTail (p : String) : String :=
  String.mk ((p.toList.reverse.takeWhile (fun c => !(c == '/'))).reverse)

/-- `os.path.splitext(b)[0]` for a basename `b`: everything before the
last dot, where leading dots of the basename never start an extension. -/
def splitextRoot (b : String) : String :=
  let cs := b.toList
  let lead := cs.takeWhile (fun c => c == '.')
  let rest := cs.drop lead.length
  if rest.reverse.contains '.' then
    String.mk (lead ++ ((rest.reverse.dropWhile (fun c => !(c == '.'))).drop
      1).reverse)
  else b

/-- `impt` of submission_scripts.py lines 103-104: the stem (basename
without extension) of a module's `__file__`. -/
def stemOfFile (p : String) : String := splitextRoot (pathTail p)

/-! ### Function.__init__ import filtering (submission_scripts.py 180-256)

An entry of the `imports` list is either a raw hint string or an
`(alias, source-name)` tuple as appended from `globals()` (line 190) and
from `inspect.getmembers(rootmod)` (line 194).  The combined list is
deduplicated and sorted with key `_sort_imports` (line 198; the key of a
tuple is its second component, the source name), and each entry is then
rendered or dropped by the loop of lines 202-253. -/

/-- One element of the `imports` list. -/
inductive Imp where
  | tup (iname name : String)
  | str (s : String)
deriving DecidableEq

/-- submission_scripts.py line 202. -/
def ignore_list : List String := ["os", "sys", "dill", "pickle"]

/-- The filter/render loop body of lines 204-253: `none` models
`continue`, `some stmt` models appending `stmt` to `filtered_imports`. -/
def filterImport : Imp → Option String
  | .tup iname name =>
    let names := splitDot name
    if iname ∈ ignore_list then none
    else if strStarts name "@" || strStarts iname "@" then none
    else if iname ≠ name then
      if 1 < names.length then
        if joinDots names.tail ≠ iname then
          some ("try:\n    from " ++ joinDots names.dropLast ++ " import "
            ++ names.getLastD "" ++ " as " ++ iname
            ++ "\nexcept ImportError:\n    pass\n")
        else
          some ("try:\n    from " ++ names.headD "" ++ " import "
            ++ joinDots names.tail ++ "\nexcept ImportError:\n    pass\n")
      else
        some ("try:\n    import " ++ name ++ " as " ++ iname
          ++ "\nexcept ImportError:\n    pass\n")
    else
      some ("try:\n    import " ++ name ++ "\nexcept ImportError:\n    pass\n")
  | .str s =>
    if s ∈ ignore_list then none
    else if strStarts s "import" || strStarts s "from" then
      some ("try:\n    " ++ rstripStr s ++ "\nexcept ImportError:\n    pass")
    else if strStarts s "@" then none
    else some ("try:\n    import " ++ s ++ "\nexcept ImportError:\n    pass\n")

/-- `_sort_imports` (lines 298-302): the sort key of a tuple is its second
component (the source name), of a raw string the string itself. -/
def sortKey : Imp → String
  | .tup _ name => name
  | .str s => s

/-- The target alias of an entry: the first component of a tuple (the
name the import is bound to), or the raw string itself. -/
def aliasOf : Imp → String
  | .tup iname _ => iname
  | .str s => s

/-- Stable insertion of one element into a key-sorted list. -/
def insertKeyed (a : Imp) : List Imp → List Imp
  | [] => [a]
  | b :: bs =>
    if strLeB (sortKey a) (sortKey b) then a :: b :: bs
    else b :: insertKeyed a bs

/-- Stable sort by `_sort_imports` key (Python `sorted(..., key=...)`). -/
def sortImps : List Imp → List Imp
  | [] => []
  | x :: xs => insertKeyed x (sortImps xs)

/-- Lines 180-198: collect the user hints, the `(alias, module-name)`
pairs of every module in `globals()` whose name is `'__main__'` or does
not start with `'__'`, and — when the root module has a `__file__` — the
pairs for every module member of the root module; then deduplicate
(`set(imports)`, whose iteration order only affects the order of entries
with equal sort keys) and sort by `_sort_imports`. -/
def buildImports (hints : List Imp) (globalsMods : List (String × String))
    (members : List (String × String)) (hasFile : Bool) : List Imp :=
  let fromGlobals :=
    (globalsMods.filter
      (fun p => p.1 == "__main__" || !(strStarts p.1 "__"))).map
      (fun p => Imp.tup p.1 p.2)
  let fromRoot :=
    if hasFile then
      (members.filter (fun p => !(strStarts p.1 "__"))).map
        (fun p => Imp.tup p.1 p.2)
    else []
  sortImps (((hints ++ fromGlobals) ++ fromRoot).dedup)

/-- The entries of the sorted import list that survive the filter loop;
their rendered statements appear in `filtered_imports` in this order. -/
def chainEntries (hints : List Imp) (globalsMods : List (String × String))
    (members : List (String × String)) (hasFile : Bool) : List Imp :=
  (buildImports hints globalsMods members hasFile).filter
    (fun i => (filterImport i).isSome)

/-- `filtered_imports` (lines 203-253): the rendered guarded statements.
The driver script embeds `set(filtered_imports)` (line 256), which keeps
exactly these statements, deduplicated, in an unspecified order. -/
def filteredImports (hints : List Imp) (globalsMods : List (String × String))
    (members : List (String × String)) (hasFile : Bool) : List String :=
  (buildImports hints globalsMods members hasFile).filterMap filterImport

/-- Does a rendered statement import the module `modname` (directly, under
an alias, or via `from modname import ...`)? -/
def rendersImportOf (stmt modname : String) : Bool :=
  containsStr (stmt ++ "\n") ("import " ++ modname ++ "\n")
  || containsStr (stmt ++ "\n") ("import " ++ modname ++ " ")
  || containsStr (stmt ++ "\n") ("from " ++ modname ++ " import")

/-- Claim C5 counterexample: the raw hint `'import os'` is not filtered
(only hint strings exactly equal to a blacklisted name are), and the
tuple `('_os', 'os')` — which the code itself injects from its own
globals at line 190 — survives because only the alias is checked against
the blacklist; both render surviving statements that import `os`. -/
theorem claim_C5_counterexample :
    (filteredImports [Imp.str "import os"] [] [] true).any
      (fun s => rendersImportOf s "os") = true ∧
    (filteredImports [] [("_os", "os")] [] true).any
      (fun s => rendersImportOf s "os") = true := by
  constructor <;> rfl

/-- Claim C5 (amended): the filter drops exactly the entries whose raw
string, or whose tuple alias (first component), is one of the blacklist
names `os`, `sys`, `dill`, `pickle` (besides `@`-prefixed entries); a raw
statement hint such as `'import os'`, or a tuple importing a blacklisted
source name under a non-blacklisted alias, survives and renders a guarded
statement that imports the blacklisted module. -/
theorem claim_C5_amended (s iname name : String) (hs : s ∈ ignore_list)
    (hi : iname ∈ ignore_list) :
    filterImport (Imp.str s) = none ∧
    filterImport (Imp.tup iname name) = none := by
  constructor
  · simp [filterImport, hs]
  · simp [filterImport, hi]

/-- Claim C5 witness: the amended theorem applied to the raw hint `'os'`
and the tuple `('sys', 'collections')`. -/
theorem claim_C5_witness :
    ("os" ∈ ignore_list ∧ "sys" ∈ ignore_list) ∧
    (filterImport (Imp.str "os") = none ∧
     filterImport (Imp.tup "sys" "collections") = none) :=
  ⟨⟨by decide, by decide⟩,
    claim_C5_amended "os" "sys" "collections" (by decide) (by decide)⟩

/-- Claim C8 counterexample: with hint tuples `('zalias', 'amod')` and
`('aalias', 'zmod')` the sorted surviving chain keeps exactly that order —
`_sort_imports` sorts by source name, not by target alias — so the
rendered entries are not in target-alias order. -/
theorem claim_C8_counterexample :
    chainEntries [Imp.tup "zalias" "amod", Imp.tup "aalias" "zmod"] [] [] true
      = [Imp.tup "zalias" "amod", Imp.tup "aalias" "zmod"] ∧
    ¬ List.Pairwise (fun a b => strLeB (aliasOf a) (aliasOf b) = true)
        (chainEntries [Imp.tup "zalias" "amod", Imp.tup "aalias" "zmod"]
          [] [] true) := by
  constructor
  · rfl
  · intro hp
    rw [show chainEntries [Imp.tup "zalias" "amod", Imp.tup "aalias" "zmod"]
        [] [] true
        = [Imp.tup "zalias" "amod", Imp.tup "aalias" "zmod"] from rfl] at hp
    have := List.rel_of_pairwise_cons hp (List.mem_singleton.mpr rfl)
    simp only [aliasOf] at this
    exact absurd this (by decide)

theorem lexLe_total (a b : List Char) : lexLe a b = true ∨ lexLe b a = true := by
  induction a generalizing b with
  | nil => left; rfl
  | cons c cs ih =>
    cases b with
    | nil => right; rfl
    | cons d ds =>
      simp only [lexLe]
      rcases Nat.lt_trichotomy c.toNat d.toNat with h | h | h
      · left
        rw [if_neg (by simp; omega)]
        simpa using h
      · rcases ih ds with h2 | h2
        · left; rw [if_pos (by simpa using h)]; exact h2
        · right; rw [if_pos (by simp; omega)]; exact h2
      · right
        rw [if_neg (by simp; omega)]
        simpa using h

theorem lexLe_trans (a b c : List Char) (h1 : lexLe a b = true)
    (h2 : lexLe b c = true) : lexLe a c = true := by
  induction a generalizing b c with
  | nil => rfl
  | cons x xs ih =>
    cases b with
    | nil => simp [lexLe] at h1
    | cons y ys =>
      cases c with
      | nil => simp [lexLe] at h2
      | cons z zs =>
        simp only [lexLe] at h1 h2 ⊢
        by_cases hxy : x.toNat = y.toNat
        · rw [if_pos (by simpa using hxy)] at h1
          by_cases hyz : y.toNat = z.toNat
          · rw [if_pos (by simpa using hyz)] at h2
            rw [if_pos (by simp; omega)]
            exact ih ys zs h1 h2
          · rw [if_neg (by simpa using hyz)] at h2
            simp only [decide_eq_true_eq] at h2
            rw [if_neg (by simp; omega)]
            simp only [decide_eq_true_eq]
            omega
        · rw [if_neg (by simpa using hxy)] at h1
          simp only [decide_eq_true_eq] at h1
          by_cases hyz : y.toNat = z.toNat
          · rw [if_neg (by simp; omega)]
            simp only [decide_eq_true_eq]
            omega
          · rw [if_neg (by simpa using hyz)] at h2
            simp only [decide_eq_true_eq] at h2
            rw [if_neg (by simp; omega)]
            simp only [decide_eq_true_eq]
            omega

theorem strLeB_total (a b : String) : strLeB a b = true ∨ strLeB b a = true :=
  lexLe_total a.toList b.toList

theorem strLeB_trans (a b c : String) (h1 : strLeB a b = true)
    (h2 : strLeB b c = true) : strLeB a c = true :=
  lexLe_trans a.toList b.toList c.toList h1 h2

/-- The order imposed on entries by `_sort_imports`: source-name order. -/
def keyLe (a b : Imp) : Prop := strLeB (sortKey a) (sortKey b) = true

theorem mem_insertKeyed (a x : Imp) (l : List Imp) :
    x ∈ insertKeyed a l ↔ x = a ∨ x ∈ l := by
  induction l with
  | nil => simp [insertKeyed]
  | cons b bs ih =>
    simp only [insertKeyed]
    split
    · simp only [List.mem_cons]
    · simp only [List.mem_cons, ih]
      tauto

theorem pairwise_insertKeyed (a : Imp) (l : List Imp)
    (h : List.Pairwise keyLe l) :
    List.Pairwise keyLe (insertKeyed a l) := by
  induction l with
  | nil => simp [insertKeyed, keyLe]
  | cons b bs ih =>
    simp only [insertKeyed]
    split
    · rename_i hab
      refine List.Pairwise.cons (fun x hx => ?_) h
      rcases List.mem_cons.mp hx with rfl | hx'
      · exact hab
      · exact strLeB_trans _ _ _ hab
          (List.rel_of_pairwise_cons h hx')
    · rename_i hab
      have hba : strLeB (sortKey b) (sortKey a) = true := by
        rcases strLeB_total (sortKey a) (sortKey b) with h1 | h1
        · exact absurd h1 hab
        · exact h1
      refine List.Pairwise.cons (fun x hx => ?_) (ih h.tail)
      rcases (mem_insertKeyed a x bs).mp hx with rfl | hx'
      · exact hba
      · exact List.rel_of_pairwise_cons h hx'

theorem pairwise_sortImps (l : List Imp) :
    List.Pairwise keyLe (sortImps l) := by
  induction l with
  | nil => exact List.Pairwise.nil
  | cons x xs ih => exact pairwise_insertKeyed x _ ih

theorem insertKeyed_perm (a : Imp) (l : List Imp) :
    List.Perm (insertKeyed a l) (a :: l) := by
  induction l with
  | nil => rfl
  | cons b bs ih =>
    simp only [insertKeyed]
    split
    · rfl
    · exact (List.Perm.cons b ih).trans (List.Perm.swap a b bs)

theorem sortImps_perm (l : List Imp) : List.Perm (sortImps l) l := by
  induction l with
  | nil => rfl
  | cons x xs ih => exact (insertKeyed_perm x _).trans (List.Perm.cons x ih)

/-- Claim C8 (amended): the import list embedded in the driver script is
deduplicated by value (line 198's `set`, and line 256's `set` over the
rendered statements), and the `filtered_imports` list is built in
`_sort_imports` order — sorted by *source name* (a tuple's second
component), not by target alias; the final embedded block is the set of
exactly these statements, whose iteration order CPython does not fix, so
neither alias-sortedness nor cross-run deterministic order is
guaranteed. -/
theorem claim_C8_amended (hints : List Imp)
    (globalsMods members : List (String × String)) (hasFile : Bool) :
    (buildImports hints globalsMods members hasFile).Nodup ∧
    List.Pairwise keyLe (chainEntries hints globalsMods members hasFile) := by
  constructor
  · exact ((sortImps_perm _).nodup_iff).mpr (List.nodup_dedup _)
  · exact List.Pairwise.sublist (List.filter_sublist _)
      (pairwise_sortImps _)

/-! ### Function.__init__ control flow (submission_scripts.py 96-271)

The constructor first calls `inspect.getmodule(function)`; when that
yields nothing, line 98 (`rootmod.__name__`) raises `AttributeError`.
When the module exists but has no `__file__` (or the derived stem is
empty, making `impt` falsy), lines 128-134 assign only `imp1`/`imp2`, and
line 137 (`if bimp1:`) reads the never-assigned local `bimp1`, raising
`NameError` (an `UnboundLocalError`).  Only when `impt` is truthy does
construction reach the import-chain computation and succeed.  The
`__module__` clobber of lines 110-112 happens before either of those
import-strategy branches but after the line-98 access. -/

/-- What `inspect.getmodule` reports about a module: its `__name__`, its
`__file__` when it has one, and its `(member-name, module.__name__)`
module members from `inspect.getmembers(rootmod, inspect.ismodule)`. -/
structure PyModule where
  name : String
  file : Option String
  members : List (String × String)

/-- The exception a `Function` construction can raise. -/
inductive InitErr where
  | attributeError -- line 98: rootmod is None and has no __name__
  | nameError      -- line 137: local bimp1 referenced before assignment
deriving DecidableEq

/-- Outcome of `Function.__init__`: the (possibly clobbered) value of
`function.__module__` after the call, and either the raised exception or
the computed `filtered_imports` chain. -/
structure FuncOutcome where
  funcModuleAfter : String
  result : Except InitErr (List String)

/-- `Function.__init__` restricted to the state the claims are about:
`funcName` is `function.__name__`, `funcModule` is `function.__module__`,
`rootmod` the result of `inspect.getmodule(function)`, `hints` the
`imports` argument (already listified), and `globalsMods` the
`(name, module.__name__)` pairs of the modules in the packager's
`globals()`. -/
def Function_init (funcName funcModule : String) (rootmod : Option PyModule)
    (hints : List Imp) (globalsMods : List (String × String)) :
    FuncOutcome :=
  match rootmod with
  | none =>
    -- line 98: `rootmod.__name__` on None raises before anything else
    ⟨funcModule, .error .attributeError⟩
  | some m =>
    let impt : Option String := m.file.map stemOfFile
    let imptTruthy : Bool :=
      match impt with
      | some s => !(s == "")
      | none => false
    -- lines 110-112: clobber function.__module__ when impt is truthy
    let newMod : String :=
      if imptTruthy && (funcModule == "__main__") then impt.getD funcModule
      else funcModule
    if imptTruthy then
      -- lines 115-127 define imp1/imp2/bimp1; lines 180-256 build the chain
      ⟨newMod, .ok (filteredImports hints globalsMods m.members true)⟩
    else
      -- impt falsy: lines 128-134 never assign bimp1; line 137 raises
      ⟨newMod, .error .nameError⟩

/-- Claim C6 counterexample: packaging a function with no discoverable
defining module (`inspect.getmodule` yields nothing) does not degrade to
an empty chain — `Function.__init__` raises `AttributeError` at line 98
(`rootmod.__name__`). -/
theorem claim_C6_counterexample :
    (Function_init "f" "__main__" none [] []).result
      = Except.error InitErr.attributeError := rfl

/-- Claim C6 (amended): dependency resolution does raise for functions
without a discoverable source: construction raises `AttributeError` when
no module is found, raises `NameError` (unbound local `bimp1`, line 137)
when the module has no `__file__`, and only succeeds — producing the
filtered import chain — when the module has a file with a non-empty
stem. -/
theorem claim_C6_amended (funcName funcModule modName f : String)
    (members : List (String × String)) (hints : List Imp)
    (globalsMods : List (String × String)) (hf : stemOfFile f ≠ "") :
    (Function_init funcName funcModule none hints globalsMods).result
      = Except.error InitErr.attributeError ∧
    (Function_init funcName funcModule (some ⟨modName, none, members⟩)
        hints globalsMods).result = Except.error InitErr.nameError ∧
    (Function_init funcName funcModule (some ⟨modName, some f, members⟩)
        hints globalsMods).result
      = Except.ok (filteredImports hints globalsMods members true) := by
  refine ⟨rfl, rfl, ?_⟩
  simp only [Function_init, Option.map_some]
  rw [if_pos (by simpa using hf)]

/-- Claim C6 witness: the amended theorem at a module file with stem
`script`. -/
theorem claim_C6_witness :
    stemOfFile "/home/u/script.py" ≠ "" ∧
    (Function_init "f" "__main__" none [] []).result
      = Except.error InitErr.attributeError ∧
    (Function_init "f" "__main__" (some ⟨"m", none, []⟩) [] []).result
      = Except.error InitErr.nameError ∧
    (Function_init "f" "__main__"
        (some ⟨"m", some "/home/u/script.py", []⟩) [] []).result
      = Except.ok (filteredImports [] [] [] true) :=
  ⟨by decide,
    (claim_C6_amended "f" "__main__" "m" "/home/u/script.py" [] [] []
      (by decide)).1,
    (claim_C6_amended "f" "__main__" "m" "/home/u/script.py" [] [] []
      (by decide)).2.1,
    (claim_C6_amended "f" "__main__" "m" "/home/u/script.py" [] [] []
      (by decide)).2.2⟩

/-- The stem of the defining file when the function's module is
discoverable in the sense of lines 102-115: the module has a `__file__`
and the derived `impt` is truthy (non-empty). -/
def discoveredStem (rootmod : Option PyModule) : Option String :=
  match rootmod with
  | some m =>
    match m.file with
    | some f => if stemOfFile f == "" then none else some (stemOfFile f)
    | none => none
  | none => none

/-- Claim C9: constructing a `Function` for a callable whose `__module__`
is `'__main__'` and whose defining file is discoverable sets the
callable's `__module__` to the stem (basename without extension) of that
file, as a side effect on the caller's function object; in every other
case — different `__module__`, no module, or no usable file — the
function object is left unchanged (also on the paths that raise, since
the clobber at lines 110-112 only runs when `impt` is truthy). -/
theorem claim_C9 (funcName funcModule : String) (rootmod : Option PyModule)
    (hints : List Imp) (globalsMods : List (String × String)) :
    (Function_init funcName funcModule rootmod hints
        globalsMods).funcModuleAfter
      = if (discoveredStem rootmod).isSome && (funcModule == "__main__")
        then (discoveredStem rootmod).getD funcModule
        else funcModule := by
  match rootmod with
  | none => rfl
  | some m =>
    match hf : m.file with
    | none => simp [Function_init, discoveredStem, hf]
    | some f =>
      by_cases hs : stemOfFile f == ""
      · simp [Function_init, discoveredStem, hf, hs]
      · by_cases hm : funcModule == "__main__"
        · simp [Function_init, discoveredStem, hf, hs, hm]
        · simp [Function_init, discoveredStem, hf, hs, hm]

/-! ### Script and Function write / attribute access
(submission_scripts.py 31-71 and 273-278)

The file system is an association list from absolute paths to contents;
`fsPut` models opening a file for writing (creating or truncating it).
`Script.write` (lines 42-51) writes `script + '\n'` and returns the path
only when `overwrite` is true or the file does not exist, else returns
`None` without touching the disk.  `Function.write` (lines 273-278) first
unconditionally dumps the pickle payload, then calls the parent write,
and — having no return statement — always returns `None`. -/

abbrev FS : Type := List (String × String)

def fsGet : FS → String → Option String
  | [], _ => none
  | (q, c) :: t, p => if q == p then some c else fsGet t p

def fsExists (fs : FS) (p : String) : Bool := (fsGet fs p).isSome

def fsPut (fs : FS) (p c : String) : FS :=
  (p, c) :: fs.filter (fun e => !(e.1 == p))

/-- The state of a `Script` object: its two instance attributes and the
current value of `written`. -/
structure ScriptS where
  file_name : String
  script : String
  written : Bool
deriving DecidableEq

/-- `Script.write(overwrite)` (lines 42-51): returns the new object state,
the new file system, and the Python return value. -/
def Script_write (s : ScriptS) (fs : FS) (overwrite : Bool) :
    ScriptS × FS × Option String :=
  if overwrite || !(fsExists fs s.file_name) then
    ({ s with written := true },
      fsPut fs s.file_name (s.script ++ "\n"), some s.file_name)
  else (s, fs, none)

/-- The state of a `Function` object: the inherited script state, the two
payload paths, and the serialized `(function, args)` blob that
`_pickle.dump` would write (serialization itself is the external
dill/pickle collaborator). -/
structure FunctionS where
  script : ScriptS
  pickle_file : String
  outfile : String
  payload : String
deriving DecidableEq

/-- `Function.write(overwrite)` (lines 273-278): always dumps the pickle
payload first, then delegates to `Script.write`; the Python method has no
return statement, so it returns `None` in every case. -/
def Function_write (f : FunctionS) (fs : FS) (overwrite : Bool) :
    FunctionS × FS × Option String :=
  let fs1 := fsPut fs f.pickle_file f.payload
  let r := Script_write f.script fs1 overwrite
  ({ f with script := r.1 }, r.2.1, none)

/-- Claim C7 counterexample: a `Function` artifact whose script file
already exists, written with `overwrite = false`: the call is not a
no-op — the pickle payload file is created on disk even though the claim
says no file is created or modified. -/
theorem claim_C7_counterexample :
    (Function_write ⟨⟨"/s.sh", "echo", false⟩, "/s.sh.pickle.in",
        "/s.sh.pickle.out", "BLOB"⟩ [("/s.sh", "old")] false).2.1
      ≠ [("/s.sh", "old")] ∧
    fsGet (Function_write ⟨⟨"/s.sh", "echo", false⟩, "/s.sh.pickle.in",
        "/s.sh.pickle.out", "BLOB"⟩ [("/s.sh", "old")] false).2.1
        "/s.sh.pickle.in"
      = some "BLOB" ∧
    fsGet [("/s.sh", "old")] "/s.sh.pickle.in" = none := by
  refine ⟨by decide, rfl, rfl⟩

/-- Claim C7 (amended): `Script.write` behaves as claimed — with
`overwrite = false` and an existing target it is a no-op returning
`None` with `written` left untouched, and otherwise it flushes
`script + '\n'`, sets `written := true` and returns the path.
`Function.write`, however, always writes the pickle payload file first,
regardless of `overwrite` and of whether the script file exists, and
always returns `None`, applying the overwrite check only to the script
file. -/
theorem fsGet_put_same (fs : FS) (p c : String) :
    fsGet (fsPut fs p c) p = some c := by
  simp [fsPut, fsGet]

theorem fsGet_filter_ne (fs : FS) (p q : String) (h : q ≠ p) :
    fsGet (List.filter (fun e => !(e.1 == q)) fs) p = fsGet fs p := by
  induction fs with
  | nil => rfl
  | cons e t ih =>
    obtain ⟨a, b⟩ := e
    by_cases ha : a = q
    · subst ha
      have hap : (a == p) = false := by simp [h]
      simp [List.filter_cons, fsGet, hap, ih]
    · have hq : (!(a == q)) = true := by simp [ha]
      simp only [List.filter_cons, hq, if_true, fsGet, ih]

theorem fsGet_put_other (fs : FS) (q c p : String) (h : q ≠ p) :
    fsGet (fsPut fs q c) p = fsGet fs p := by
  have hq : (q == p) = false := by simp [h]
  simp only [fsPut, fsGet, hq, if_false]
  exact fsGet_filter_ne fs p q h

theorem claim_C7_amended (s : ScriptS) (f : FunctionS) (fs : FS)
    (ow : Bool) (hex : fsExists fs s.file_name = true)
    (hne : f.pickle_file ≠ f.script.file_name) :
    Script_write s fs false = (s, fs, none) ∧
    ((ow || !(fsExists fs s.file_name)) = true →
      Script_write s fs ow
        = ({ s with written := true },
            fsPut fs s.file_name (s.script ++ "\n"), some s.file_name)) ∧
    fsGet (Function_write f fs ow).2.1 f.pickle_file = some f.payload ∧
    (Function_write f fs ow).2.2 = none := by
  refine ⟨?_, ?_, ?_, rfl⟩
  · simp [Script_write, hex]
  · intro h
    simp [Script_write, h]
  · show fsGet (Script_write f.script (fsPut fs f.pickle_file f.payload)
        ow).2.1 f.pickle_file = some f.payload
    rw [Script_write]
    split
    · show fsGet (fsPut (fsPut fs f.pickle_file f.payload)
          f.script.file_name (f.script.script ++ "\n")) f.pickle_file
        = some f.payload
      rw [fsGet_put_other _ _ _ _ (Ne.symm hne), fsGet_put_same]
    · exact fsGet_put_same fs f.pickle_file f.payload

/-- Claim C7 witness: a `Script` no-op and a `Function` write at concrete
states. -/
theorem claim_C7_witness :
    fsExists [("/s.sh", "old")] "/s.sh" = true ∧
    ("/s.sh.pickle.in" : String) ≠ "/s.sh" ∧
    Script_write ⟨"/s.sh", "echo", false⟩ [("/s.sh", "old")] false
      = (⟨"/s.sh", "echo", false⟩, [("/s.sh", "old")], none) ∧
    fsGet (Function_write ⟨⟨"/s.sh", "echo", false⟩, "/s.sh.pickle.in",
        "/s.sh.pickle.out", "BLOB"⟩ [("/s.sh", "old")] true).2.1
        "/s.sh.pickle.in" = some "BLOB" ∧
    (Function_write ⟨⟨"/s.sh", "echo", false⟩, "/s.sh.pickle.in",
        "/s.sh.pickle.out", "BLOB"⟩ [("/s.sh", "old")] true).2.2 = none :=
  ⟨by decide, by decide,
    (claim_C7_amended ⟨"/s.sh", "echo", false⟩
      ⟨⟨"/s.sh", "echo", false⟩, "/s.sh.pickle.in", "/s.sh.pickle.out",
        "BLOB"⟩ [("/s.sh", "old")] true (by decide) (by decide)).1,
    (claim_C7_amended ⟨"/s.sh", "echo", false⟩
      ⟨⟨"/s.sh", "echo", false⟩, "/s.sh.pickle.in", "/s.sh.pickle.out",
        "BLOB"⟩ [("/s.sh", "old")] true (by decide) (by decide)).2.2.1,
    (claim_C7_amended ⟨"/s.sh", "echo", false⟩
      ⟨⟨"/s.sh", "echo", false⟩, "/s.sh.pickle.in", "/s.sh.pickle.out",
        "BLOB"⟩ [("/s.sh", "old")] true (by decide) (by decide)).2.2.2⟩

/-! ### Script attribute access (submission_scripts.py 59-62)

Python resolves `obj.attr` by normal lookup (instance dictionary, then the
class and its bases); only when that fails is `__getattr__` consulted, and
only when no `__getattr__` exists does the access raise `AttributeError`.
`Script.__getattr__` returns the file-existence boolean for `'exists'`
and otherwise falls off the end of the function, returning `None`. -/

/-- A Python attribute value as far as the claims need: a string, a bool,
a bound method, or `None`. -/
inductive PyVal where
  | str (s : String)
  | bool (b : Bool)
  | method (nm : String)
  | pyNone
deriving DecidableEq

/-- Normal attribute lookup on a `Script` object: the instance attributes
set in `__init__` (`script`, `file_name`), the class attribute `written`
(shadowed by an instance attribute after a successful `write`), and the
methods defined on the class. -/
def scriptInstanceLookup (s : ScriptS) (attr : String) : Option PyVal :=
  if attr == "script" then some (.str s.script)
  else if attr == "file_name" then some (.str s.file_name)
  else if attr == "written" then some (.bool s.written)
  else if attr == "write" then some (.method "write")
  else if attr == "clean" then some (.method "clean")
  else if attr == "__init__" then some (.method "__init__")
  else if attr == "__getattr__" then some (.method "__getattr__")
  else if attr == "__repr__" then some (.method "__repr__")
  else if attr == "__str__" then some (.method "__str__")
  else none

/-- Python's attribute protocol: the normal lookup result if any, else the
class's `__getattr__` hook if it has one, else `AttributeError`. -/
def pyAttrLookup (normal : Option PyVal) (hook : Option (String → PyVal))
    (attr : String) : Except InitErr PyVal :=
  match normal with
  | some v => .ok v
  | none =>
    match hook with
    | some h => .ok (h attr)
    | none => .error .attributeError

/-- The body of `Script.__getattr__` (lines 59-62): `'exists'` computes
file existence; any other name falls through and returns `None`. -/
def script_getattr_hook (s : ScriptS) (fs : FS) : String → PyVal :=
  fun attr =>
    if attr == "exists" then .bool (fsExists fs s.file_name) else .pyNone

/-- Reading `s.attr` on a `Script` object against file system `fs`. -/
def scriptAttr (s : ScriptS) (fs : FS) (attr : String) : Except InitErr PyVal :=
  pyAttrLookup (scriptInstanceLookup s attr) (some (script_getattr_hook s fs))
    attr

/-- Claim C10: reading any attribute on a `Script` never raises
`AttributeError`; an attribute that is not otherwise defined on the object
or its class evaluates to `None`, except `'exists'`, which evaluates to
the existence of the backing file. -/
theorem claim_C10 (s : ScriptS) (fs : FS) (attr : String)
    (hundef : scriptInstanceLookup s attr = none) :
    (∀ a, scriptAttr s fs a ≠ Except.error InitErr.attributeError) ∧
    (attr ≠ "exists" → scriptAttr s fs attr = Except.ok PyVal.pyNone) ∧
    scriptAttr s fs "exists"
      = Except.ok (PyVal.bool (fsExists fs s.file_name)) := by
  refine ⟨fun a => ?_, fun hne => ?_, ?_⟩
  · rw [scriptAttr]
    match scriptInstanceLookup s a with
    | some v => simp [pyAttrLookup]
    | none => simp [pyAttrLookup]
  · rw [scriptAttr, hundef]
    simp only [pyAttrLookup, script_getattr_hook]
    rw [if_neg (by simpa using hne)]
  · rfl

/-- Claim C10 witness: a misspelled attribute on a concrete `Script`
returns `None` and `'exists'` returns the file-existence boolean. -/
theorem claim_C10_witness :
    scriptInstanceLookup ⟨"/s.sh", "echo", false⟩ "exsits" = none ∧
    (∀ a, scriptAttr ⟨"/s.sh", "echo", false⟩ [] a
        ≠ Except.error InitErr.attributeError) ∧
    scriptAttr ⟨"/s.sh", "echo", false⟩ [] "exsits"
      = Except.ok PyVal.pyNone ∧
    scriptAttr ⟨"/s.sh", "echo", false⟩ []
        "exists" = Except.ok (PyVal.bool (fsExists [] "/s.sh")) :=
  ⟨by decide,
    (claim_C10 ⟨"/s.sh", "echo", false⟩ [] "exsits" (by decide)).1,
    (claim_C10 ⟨"/s.sh", "echo", false⟩ [] "exsits" (by decide)).2.1
      (by decide),
    (claim_C10 ⟨"/s.sh", "echo", false⟩ [] "exsits" (by decide)).2.2⟩

end Fyrd
